import Mathlib

/-!
Shallow embedding of the TVMaze client reliability layer
(`tvbingefriend_tvmaze_client`): the sliding-window rate limiter
(`rate_limiter.py`), the retry/backoff handler (`retry_handler.py`) and the
reliability manager composing them (`reliability.py`).

Timestamps and delays are modelled as exact rationals (`Rat`); `datetime.now`
is threaded explicitly as a `now` parameter.  Mutating methods become
state-passing functions; the `defaultdict` of backoff states becomes a total
function together with an explicit key set, so that the default-on-access
insertion side effect is observable.  Blocking sleeps and other effects are
recorded in an event trace.
-/

namespace TVMaze

/-- State of `TVMazeRateLimiter` (rate_limiter.py): configuration plus the
deque of request timestamps (oldest first), the burst counter and the time of
the last burst reset. -/
structure RateLimiterState where
  requests_per_minute : Nat
  burst_requests : Nat
  request_times : List Rat
  burst_count : Nat
  last_burst_reset : Rat
deriving DecidableEq

/-- `TVMazeRateLimiter.can_make_request`: purges timestamps older than 60
seconds, resets the burst counter when more than 60 seconds have elapsed since
the last reset, and permits the request iff both the per-minute count and the
burst count are below their caps.  Returns the answer and the mutated state. -/
def can_make_request (now : Rat) (s : RateLimiterState) : Bool × RateLimiterState :=
  let cutoff := now - 60
  let times := s.request_times.dropWhile (fun t => decide (t ≤ cutoff))
  let burstReset := decide (60 < now - s.last_burst_reset)
  let bc := if burstReset then 0 else s.burst_count
  let lbr := if burstReset then now else s.last_burst_reset
  let s' : RateLimiterState :=
    { s with request_times := times, burst_count := bc, last_burst_reset := lbr }
  (decide (times.length < s.requests_per_minute) && decide (bc < s.burst_requests), s')

/-- `TVMazeRateLimiter.record_request`: the source appends the current
timestamp to `request_times` twice and increments `burst_count` once. -/
def record_request (now : Rat) (s : RateLimiterState) : RateLimiterState :=
  { s with request_times := s.request_times ++ [now, now],
           burst_count := s.burst_count + 1 }

/-- `TVMazeRateLimiter.time_until_next_request`: 0 when a request is currently
permitted; otherwise `max 1 (min timeUntilMinuteReset timeUntilBurstReset)`,
where the minute-reset term is measured from the oldest surviving timestamp
(0 when none survive).  Returns the value and the state mutated by the
embedded `can_make_request` call. -/
def time_until_next_request (now : Rat) (s : RateLimiterState) : Rat × RateLimiterState :=
  let p := can_make_request now s
  if p.1 then (0, p.2)
  else
    let tmr : Rat :=
      match p.2.request_times with
      | [] => 0
      | t :: _ => 60 - (now - t)
    let tbr : Rat := 60 - (now - p.2.last_burst_reset)
    (max 1 (min tmr tbr), p.2)

/-- `TVMazeRateLimiter.wait_if_needed`: when not permitted, sleeps for
`time_until_next_request` seconds.  Returns the slept duration (0 when
permitted) and the mutated state. -/
def wait_if_neededW (now : Rat) (s : RateLimiterState) : Rat × RateLimiterState :=
  let p := can_make_request now s
  if p.1 then (0, p.2)
  else time_until_next_request now p.2

/-- Model of a Python exception as seen by the retry handler's classifiers:
whether it is a `requests.exceptions.HTTPError`, whether it has a non-`None`
`response` (and that response's status code), the transient transport error
classes, and `str(exception)`. -/
structure ApiError where
  isHTTPError : Bool
  hasResponse : Bool
  status_code : Nat
  isConnectionError : Bool
  isTimeout : Bool
  isChunkedEncodingError : Bool
  msg : String
deriving DecidableEq

/-- ASCII lowering of `str(exception)`, modelling Python's `.lower()`. -/
def lowerStr (s : String) : String :=
  String.mk (s.data.map Char.toLower)

/-- Executable substring test on character lists, modelling Python's
`needle in haystack` on strings. -/
def substrIn (needle : List Char) : List Char → Bool
  | [] => needle.isEmpty
  | c :: rest => needle.isPrefixOf (c :: rest) || substrIn needle rest

/-- The fixed vocabulary searched by `is_rate_limit_error`. -/
def rate_limit_indicators : List String :=
  ["rate limit", "too many requests", "429", "quota exceeded", "throttled"]

/-- `TVMazeRetryHandler.is_rate_limit_error`: an `HTTPError` with a non-`None`
response is classified solely by `status_code == 429`; only otherwise is the
lowered message searched for the indicator phrases. -/
def is_rate_limit_error (e : ApiError) : Bool :=
  if e.isHTTPError && e.hasResponse then
    e.status_code == 429
  else
    rate_limit_indicators.any fun ind => substrIn ind.data (lowerStr e.msg).data

/-- `TVMazeRetryHandler.is_retriable_error`: rate-limit errors, the transient
transport error classes, and `HTTPError`s with status ≥ 500 or 429. -/
def is_retriable_error (e : ApiError) : Bool :=
  if is_rate_limit_error e then true
  else if e.isConnectionError || e.isTimeout || e.isChunkedEncodingError then true
  else if e.isHTTPError && e.hasResponse then
    decide (500 ≤ e.status_code) || e.status_code == 429
  else false

/-- Configuration of `TVMazeRetryHandler`. -/
structure RetryConfig where
  max_attempts : Nat
  base_delay_seconds : Rat
  max_delay_seconds : Rat
deriving DecidableEq

/-- `TVMazeRetryHandler.calculate_backoff_delay` (attempt is 1-based). -/
def calculate_backoff_delay (cfg : RetryConfig) (attempt : Nat) (is_rate_limit : Bool) : Rat :=
  if is_rate_limit then
    min 60 (cfg.base_delay_seconds * 30)
  else
    min (cfg.base_delay_seconds * 2 ^ (attempt - 1)) cfg.max_delay_seconds

/-- The `BackoffState` TypedDict of retry_handler.py. -/
structure BackoffState where
  consecutive_failures : Nat
  last_failure_time : Option Rat
  backoff_until : Option Rat
deriving DecidableEq

/-- The zero-valued default produced by the `defaultdict` factory. -/
def default_backoff : BackoffState :=
  { consecutive_failures := 0, last_failure_time := none, backoff_until := none }

/-- The `defaultdict[str, BackoffState]` of the handler: a total value map
plus the explicit key set, so the insert-on-access side effect is visible. -/
structure BackoffMap where
  keys : List String
  state : String → BackoffState

/-- The handler's initial (empty) backoff mapping. -/
def emptyBackoffMap : BackoffMap :=
  { keys := [], state := fun _ => default_backoff }

/-- Store a value under a key (dict assignment / mutation of the entry). -/
def BackoffMap.insert (m : BackoffMap) (id : String) (v : BackoffState) : BackoffMap :=
  { keys := if id ∈ m.keys then m.keys else id :: m.keys,
    state := fun k => if k = id then v else m.state k }

/-- Reading `self.backoff_state[operation_id]` on a `defaultdict` inserts the
default entry for a missing key: the value map is unchanged, the key set may
grow. -/
def BackoffMap.touch (m : BackoffMap) (id : String) : BackoffMap :=
  m.insert id (m.state id)

/-- Well-formedness: keys outside the key set still hold the zero default
(true of every map reachable from `emptyBackoffMap`). -/
def BackoffMap.WF (m : BackoffMap) : Prop :=
  ∀ id, id ∉ m.keys → m.state id = default_backoff

/-- `TVMazeRetryHandler.handle_failure`: increments `consecutive_failures`,
stamps `last_failure_time := now`, and sets `backoff_until` to `now` plus the
backoff delay computed from the new failure count and the rate-limit
classification of the error. -/
def handle_failure (cfg : RetryConfig) (now : Rat) (m : BackoffMap) (id : String)
    (e : ApiError) : BackoffMap :=
  let st := m.state id
  let n := st.consecutive_failures + 1
  let d := calculate_backoff_delay cfg n (is_rate_limit_error e)
  m.insert id { consecutive_failures := n,
                last_failure_time := some now,
                backoff_until := some (now + d) }

/-- `TVMazeRetryHandler.handle_success`: resets the entry to the zero state,
but only when the key is already present (`in` does not insert). -/
def handle_success (m : BackoffMap) (id : String) : BackoffMap :=
  if id ∈ m.keys then m.insert id default_backoff else m

/-- `TVMazeRetryHandler.check_backoff`: accesses the entry (inserting a
default for a missing key), and sleeps until `backoff_until` when it is set
and in the future.  Returns the slept duration and the mutated map. -/
def check_backoff (now : Rat) (m : BackoffMap) (id : String) : Rat × BackoffMap :=
  let st := m.state id
  let m' := m.touch id
  match st.backoff_until with
  | some bu => if now < bu then (bu - now, m') else (0, m')
  | none => (0, m')

/-- The snapshot returned by `TVMazeRetryHandler.get_status`. -/
structure RetryStatus where
  operation_id : String
  consecutive_failures : Nat
  in_backoff_period : Bool
  backoff_until : Option Rat
  last_failure_time : Option Rat
  max_attempts : Nat
deriving DecidableEq

/-- `TVMazeRetryHandler.get_status`: reads the entry through the
`defaultdict` (inserting a default for a missing key) and reports it. -/
def get_status (cfg : RetryConfig) (now : Rat) (m : BackoffMap) (id : String) :
    RetryStatus × BackoffMap :=
  let st := m.state id
  let m' := m.touch id
  ({ operation_id := id,
     consecutive_failures := st.consecutive_failures,
     in_backoff_period :=
       match st.backoff_until with
       | some bu => decide (now < bu)
       | none => false,
     backoff_until := st.backoff_until,
     last_failure_time := st.last_failure_time,
     max_attempts := cfg.max_attempts }, m')

/-- Outcome of one invocation of the wrapped unit of work: a result or a
raised exception. -/
inductive WorkResult (α : Type) where
  | ok (v : α)
  | raise (e : ApiError)

/-- Observable events of one guarded call: the rate-limit wait, the single
`record_request`, the `check_backoff` wait, each attempt's invocation of the
work, the between-attempt backoff sleeps, and the backoff bookkeeping calls. -/
inductive CallEvent where
  | rateWait (d : Rat)
  | recordRequest
  | backoffWait (d : Rat)
  | attempt (n : Nat)
  | sleep (d : Rat)
  | handleFailure (id : String)
  | handleSuccess (id : String)
deriving DecidableEq

/-- Recognizer for the `record_request` event. -/
def CallEvent.isRecord : CallEvent → Bool
  | .recordRequest => true
  | _ => false

/-- Recognizer for the `handle_failure` event. -/
def CallEvent.isHandleFailure : CallEvent → Bool
  | .handleFailure _ => true
  | _ => false

/-- `attempts = max_attempts or self.max_attempts`: Python truthiness makes a
`None` or `0` override fall back to the configured default. -/
def resolve_attempts (override : Option Nat) (dflt : Nat) : Nat :=
  match override with
  | none => dflt
  | some n => if n = 0 then dflt else n

/-- Result of the retry loop: the returned value or the raised exception
(`none` models `raise None` when the loop body never ran), the backoff map,
and the event trace. -/
structure RetryOut (α : Type) where
  result : Except (Option ApiError) α
  map : BackoffMap
  trace : List CallEvent

/-- The `for attempt in range(1, attempts + 1)` loop body of
`TVMazeRetryHandler.with_retry`, one recursive step per iteration.  `fuel` is
the number of iterations left (`attempts + 1 - attempt`); `last` is
`last_exception`.  On success: `handle_success` and return.  On a
non-retriable error: re-raise immediately.  On a retriable error: sleep the
backoff delay and continue when attempts remain, otherwise `handle_failure`;
after the loop the last exception is re-raised. -/
def retryGo (cfg : RetryConfig) (now : Rat) (id : String) (work : Nat → WorkResult α)
    (attempts : Nat) : Nat → Nat → BackoffMap → List CallEvent → Option ApiError → RetryOut α
  | _, 0, m, tr, last => ⟨.error last, m, tr⟩
  | attempt, fuel + 1, m, tr, _last =>
    let tr := tr ++ [CallEvent.attempt attempt]
    match work attempt with
    | .ok v => ⟨.ok v, handle_success m id, tr ++ [CallEvent.handleSuccess id]⟩
    | .raise e =>
      if is_retriable_error e = false then ⟨.error (some e), m, tr⟩
      else if attempt < attempts then
        let d := calculate_backoff_delay cfg attempt (is_rate_limit_error e)
        retryGo cfg now id work attempts (attempt + 1) fuel m
          (tr ++ [CallEvent.sleep d]) (some e)
      else ⟨.error (some e), handle_failure cfg now m id e, tr ++ [CallEvent.handleFailure id]⟩

/-- `TVMazeRetryHandler.with_retry` applied to one unit of work: resolve the
attempt budget, run `check_backoff` once, then iterate the loop from
attempt 1. -/
def with_retry (cfg : RetryConfig) (now : Rat) (id : String) (override : Option Nat)
    (work : Nat → WorkResult α) (m : BackoffMap) : RetryOut α :=
  let attempts := resolve_attempts override cfg.max_attempts
  let p := check_backoff now m id
  let tr0 := if 0 < p.1 then [CallEvent.backoffWait p.1] else []
  retryGo cfg now id work attempts 1 attempts p.2 tr0 none

/-- Result of one invocation of a call guarded by
`TVMazeReliabilityManager.reliable_api_call`. -/
structure ReliableOut (α : Type) where
  result : Except (Option ApiError) α
  rate : RateLimiterState
  map : BackoffMap
  trace : List CallEvent

/-- `TVMazeReliabilityManager.reliable_api_call`: retry logic wraps the raw
work first, rate limiting wraps the retry-wrapped work second, so one
invocation runs `wait_if_needed`, then `record_request` once, then the whole
retry loop. -/
def reliable_api_call (cfg : RetryConfig) (now : Rat) (id : String) (override : Option Nat)
    (work : Nat → WorkResult α) (s : RateLimiterState) (m : BackoffMap) : ReliableOut α :=
  let w := wait_if_neededW now s
  let s2 := record_request now w.2
  let r := with_retry cfg now id override work m
  { result := r.result,
    rate := s2,
    map := r.map,
    trace := (if 0 < w.1 then [CallEvent.rateWait w.1] else [])
              ++ [CallEvent.recordRequest] ++ r.trace }

/-- One call in a client session touching the handler's backoff state. -/
inductive HandlerOp where
  | fail (id : String) (now : Rat) (e : ApiError)
  | succ (id : String)

/-- Apply one `handle_failure`/`handle_success` call to the backoff map. -/
def applyOp (cfg : RetryConfig) (m : BackoffMap) : HandlerOp → BackoffMap
  | .fail id now e => handle_failure cfg now m id e
  | .succ id => handle_success m id

/-- Run a sequence of `handle_failure`/`handle_success` calls from the
freshly constructed handler. -/
def runOps (cfg : RetryConfig) (ops : List HandlerOp) : BackoffMap :=
  ops.foldl (applyOp cfg) emptyBackoffMap

/-- Apply `record_request` once per timestamp in the list, oldest first. -/
def recordMany (times : List Rat) (s : RateLimiterState) : RateLimiterState :=
  times.foldl (fun s t => record_request t s) s

/-- Sample error: no structured status, text mentions a 429. -/
def err429text : ApiError :=
  { isHTTPError := false, hasResponse := false, status_code := 0,
    isConnectionError := false, isTimeout := false, isChunkedEncodingError := false,
    msg := "429 too many requests" }

/-- Sample error: `HTTPError` with a 400 response, plain message. -/
def err400 : ApiError :=
  { isHTTPError := true, hasResponse := true, status_code := 400,
    isConnectionError := false, isTimeout := false, isChunkedEncodingError := false,
    msg := "bad request" }

/-- Sample error: `HTTPError` with a 400 response whose message nevertheless
contains the indicator phrase "rate limit". -/
def err400rl : ApiError :=
  { isHTTPError := true, hasResponse := true, status_code := 400,
    isConnectionError := false, isTimeout := false, isChunkedEncodingError := false,
    msg := "rate limit" }

/-!  ## Theorems  -/

/-- Inserting a value makes it the stored value of its key. -/
theorem BackoffMap.insert_state_self (m : BackoffMap) (id : String) (v : BackoffState) :
    (m.insert id v).state id = v := by
  simp [BackoffMap.insert]

/-- Touching a key never changes the stored values. -/
theorem BackoffMap.touch_state (m : BackoffMap) (id k : String) :
    (m.touch id).state k = m.state k := by
  unfold BackoffMap.touch BackoffMap.insert
  by_cases h : k = id <;> simp [h]

/-- Touching a key puts it into the key set. -/
theorem BackoffMap.touch_mem (m : BackoffMap) (id : String) :
    id ∈ (m.touch id).keys := by
  unfold BackoffMap.touch BackoffMap.insert
  by_cases h : id ∈ m.keys <;> simp [h]

/-- Inserting preserves well-formedness. -/
theorem BackoffMap.WF.insert {m : BackoffMap} (h : m.WF) (id : String) (v : BackoffState) :
    (m.insert id v).WF := by
  intro k hk
  unfold BackoffMap.insert at hk ⊢
  by_cases hki : k = id
  · subst hki
    exfalso
    by_cases hmem : k ∈ m.keys <;> simp [hmem] at hk
  · simp only [if_neg hki]
    refine h k ?_
    intro hmemk
    exact hk (by by_cases hmem : id ∈ m.keys <;> simp [hmem, hmemk])

/-- The fresh handler's map is well-formed. -/
theorem emptyBackoffMap_wf : emptyBackoffMap.WF := fun _ _ => rfl

/-- `handle_failure` and `handle_success` preserve well-formedness. -/
theorem applyOp_wf (cfg : RetryConfig) {m : BackoffMap} (h : m.WF) (op : HandlerOp) :
    (applyOp cfg m op).WF := by
  cases op with
  | fail id now e => exact h.insert id _
  | succ id =>
    unfold applyOp handle_success
    by_cases hmem : id ∈ m.keys
    · simpa [hmem] using h.insert id default_backoff
    · simpa [hmem] using h

/-- Any sequence of `handle_failure`/`handle_success` calls starting from the
fresh handler yields a well-formed map. -/
theorem runOps_wf (cfg : RetryConfig) (ops : List HandlerOp) : (runOps cfg ops).WF := by
  unfold runOps
  have : ∀ (l : List HandlerOp) (m : BackoffMap), m.WF → (l.foldl (applyOp cfg) m).WF := by
    intro l
    induction l with
    | nil => intro m hm; exact hm
    | cons op rest ih =>
      intro m hm
      exact ih _ (applyOp_wf cfg hm op)
  exact this ops emptyBackoffMap emptyBackoffMap_wf

/-- On a well-formed map, `handle_success` leaves the key's observable state
at the zero default, whether or not the key was present. -/
theorem handle_success_state {m : BackoffMap} (h : m.WF) (id : String) :
    (handle_success m id).state id = default_backoff := by
  unfold handle_success
  by_cases hmem : id ∈ m.keys
  · simp [hmem, BackoffMap.insert_state_self]
  · simp only [if_neg hmem]
    exact h id hmem

/-- Claim C1 (counterexample): a single `record_request` call on the fresh
limiter grows `request_times` by two entries, not by one as the claim
states. -/
theorem claim_C1_counterexample :
    (record_request 0 (RateLimiterState.mk 60 10 [] 0 0)).request_times.length ≠
      (RateLimiterState.mk 60 10 [] 0 0).request_times.length + 1 := by
  decide

/-- Claim C1 (amended): every `record_request` call appends the current
timestamp twice and increments `burst_count` once, so after `k` calls (no
purging happens inside `record_request`) `request_times` has grown by `2 * k`
and `burst_count` by `k`. -/
theorem claim_C1_amended (times : List Rat) (s : RateLimiterState) :
    (recordMany times s).request_times.length = s.request_times.length + 2 * times.length ∧
    (recordMany times s).burst_count = s.burst_count + times.length := by
  induction times generalizing s with
  | nil => simp [recordMany]
  | cons t ts ih =>
    have h := ih (record_request t s)
    unfold recordMany at h ⊢
    rw [List.foldl_cons]
    refine ⟨h.1.trans ?_, h.2.trans ?_⟩
    · simp [record_request]
      omega
    · simp [record_request]
      omega

/-- Claim C4: for 1-based attempt numbers and a nonnegative base delay,
`calculate_backoff_delay` is `min 60 (base * 30)` for rate-limit errors
independently of the attempt, and `min (base * 2 ^ (n - 1)) max_delay` for
other errors, monotone in the attempt number and capped at `max_delay`. -/
theorem claim_C4 (cfg : RetryConfig) (n : Nat) (h1 : 1 ≤ n)
    (hb : 0 ≤ cfg.base_delay_seconds) :
    calculate_backoff_delay cfg n true = min 60 (cfg.base_delay_seconds * 30) ∧
    calculate_backoff_delay cfg n false =
      min (cfg.base_delay_seconds * 2 ^ (n - 1)) cfg.max_delay_seconds ∧
    calculate_backoff_delay cfg n false ≤ calculate_backoff_delay cfg (n + 1) false ∧
    calculate_backoff_delay cfg n false ≤ cfg.max_delay_seconds := by
  refine ⟨rfl, rfl, ?_, ?_⟩
  · unfold calculate_backoff_delay
    simp only [if_neg (Bool.false_ne_true)]
    refine min_le_min ?_ le_rfl
    refine mul_le_mul_of_nonneg_left ?_ hb
    exact pow_le_pow_right₀ (by norm_num) (by omega)
  · exact min_le_right _ _

/-- Claim C4 witness: concrete evaluation at attempt 2 with the default-style
configuration. -/
theorem claim_C4_witness :
    calculate_backoff_delay (RetryConfig.mk 3 1 60) 2 true = min 60 ((1 : Rat) * 30) ∧
    calculate_backoff_delay (RetryConfig.mk 3 1 60) 2 false =
      min ((1 : Rat) * 2 ^ (2 - 1)) 60 ∧
    calculate_backoff_delay (RetryConfig.mk 3 1 60) 2 false ≤
      calculate_backoff_delay (RetryConfig.mk 3 1 60) 3 false ∧
    calculate_backoff_delay (RetryConfig.mk 3 1 60) 2 false ≤ (60 : Rat) :=
  claim_C4 (RetryConfig.mk 3 1 60) 2 (by decide) (by decide)

/-- Claim C7: `time_until_next_request` returns exactly 0 when a request is
permitted; otherwise it returns at least 1, and (whenever any tracked
timestamp survives the purge) exactly
`max 1 (min (time until the oldest timestamp ages out) (time until the burst
window resets))`. -/
theorem claim_C7 (now : Rat) (s : RateLimiterState) :
    ((can_make_request now s).1 = true → (time_until_next_request now s).1 = 0) ∧
    ((can_make_request now s).1 = false →
      1 ≤ (time_until_next_request now s).1 ∧
      ∀ t ts, (can_make_request now s).2.request_times = t :: ts →
        (time_until_next_request now s).1 =
          max 1 (min (60 - (now - t)) (60 - (now - (can_make_request now s).2.last_burst_reset)))) := by
  constructor
  · intro h
    simp [time_until_next_request, h]
  · intro h
    constructor
    · simp only [time_until_next_request, h, Bool.false_eq_true, if_false]
      exact le_max_left _ _
    · intro t ts hts
      simp only [time_until_next_request, h, Bool.false_eq_true, if_false, hts]

/-- Claim C7 witness: a limiter capped at 1 request per minute that recorded
a request 30 seconds ago is not permitted, and the wait estimate follows the
claimed formula. -/
theorem claim_C7_witness :
    (can_make_request 30 (RateLimiterState.mk 1 10 [0] 0 0)).1 = false ∧
    1 ≤ (time_until_next_request 30 (RateLimiterState.mk 1 10 [0] 0 0)).1 ∧
    (time_until_next_request 30 (RateLimiterState.mk 1 10 [0] 0 0)).1 =
      max 1 (min (60 - (30 - 0))
        (60 - (30 - (can_make_request 30 (RateLimiterState.mk 1 10 [0] 0 0)).2.last_burst_reset))) :=
  ⟨by norm_num [can_make_request],
    ((claim_C7 30 (RateLimiterState.mk 1 10 [0] 0 0)).2 (by norm_num [can_make_request])).1,
    ((claim_C7 30 (RateLimiterState.mk 1 10 [0] 0 0)).2
      (by norm_num [can_make_request])).2 0 [] (by norm_num [can_make_request])⟩

/-- Claim C2 (counterexample): `err400rl` is an `HTTPError` with an attached
400 response whose message contains the indicator phrase "rate limit"; the
claim says `is_rate_limit_error` must return true, but the source returns
`status_code == 429`, i.e. false, without consulting the text. -/
theorem claim_C2_counterexample :
    substrIn "rate limit".data (lowerStr err400rl.msg).data = true ∧
    is_rate_limit_error err400rl = false := by
  constructor <;> decide

/-- Claim C2 (amended): `is_rate_limit_error` returns true iff the error is
an `HTTPError` with an attached response of status 429, or it is not an
`HTTPError` with an attached response and its lowered text contains one of
the indicator phrases; text matching never applies when a response with a
status is attached. -/
theorem claim_C2_amended (e : ApiError) :
    is_rate_limit_error e = true ↔
      ((e.isHTTPError = true ∧ e.hasResponse = true ∧ e.status_code = 429) ∨
       (¬(e.isHTTPError = true ∧ e.hasResponse = true) ∧
         ∃ ind ∈ rate_limit_indicators, substrIn ind.data (lowerStr e.msg).data = true)) := by
  unfold is_rate_limit_error
  by_cases h : (e.isHTTPError && e.hasResponse) = true
  · rw [if_pos h]
    rw [Bool.and_eq_true] at h
    simp [h.1, h.2, Nat.beq_eq]
  · rw [if_neg h]
    rw [Bool.and_eq_true] at h
    simp only [List.any_eq_true]
    constructor
    · intro hind
      exact Or.inr ⟨fun hc => h ⟨hc.1, hc.2⟩, hind⟩
    · intro hor
      rcases hor with hl | hr
      · exact absurd ⟨hl.1, hl.2.1⟩ h
      · exact hr.2

/-- Claim C8: after any prior sequence of `handle_failure`/`handle_success`
calls on a fresh handler, `handle_success X` leaves `X`'s backoff state at
the zero default: 0 consecutive failures, no last failure time, no backoff
deadline. -/
theorem claim_C8 (cfg : RetryConfig) (ops : List HandlerOp) (X : String) :
    (handle_success (runOps cfg ops) X).state X = default_backoff :=
  handle_success_state (runOps_wf cfg ops) X

/-- `check_backoff` always returns the touched map. -/
theorem check_backoff_map (now : Rat) (m : BackoffMap) (id : String) :
    (check_backoff now m id).2 = m.touch id := by
  unfold check_backoff
  cases h : (m.state id).backoff_until with
  | none => simp [h]
  | some bu =>
    simp only [h]
    by_cases hlt : now < bu <;> simp [hlt]

/-- Claim C9: for an operation-id not yet tracked, the read-oriented
`check_backoff` and `get_status` insert a fresh zero-valued entry as a side
effect of accessing the default-on-access mapping. -/
theorem claim_C9 (cfg : RetryConfig) (now : Rat) (m : BackoffMap) (X : String)
    (hX : X ∉ m.keys) (hWF : m.WF) :
    X ∈ (check_backoff now m X).2.keys ∧
    (check_backoff now m X).2.state X = default_backoff ∧
    X ∈ (get_status cfg now m X).2.keys ∧
    (get_status cfg now m X).2.state X = default_backoff := by
  refine ⟨?_, ?_, ?_, ?_⟩
  · rw [check_backoff_map]
    exact m.touch_mem X
  · rw [check_backoff_map, BackoffMap.touch_state]
    exact hWF X hX
  · exact m.touch_mem X
  · rw [show (get_status cfg now m X).2 = m.touch X from rfl, BackoffMap.touch_state]
    exact hWF X hX

/-- Claim C9 witness: a fresh handler map and the operation-id "op". -/
theorem claim_C9_witness :
    "op" ∈ (check_backoff 0 emptyBackoffMap "op").2.keys ∧
    (check_backoff 0 emptyBackoffMap "op").2.state "op" = default_backoff ∧
    "op" ∈ (get_status (RetryConfig.mk 3 1 60) 0 emptyBackoffMap "op").2.keys ∧
    (get_status (RetryConfig.mk 3 1 60) 0 emptyBackoffMap "op").2.state "op" = default_backoff :=
  claim_C9 (RetryConfig.mk 3 1 60) 0 emptyBackoffMap "op"
    (by simp [emptyBackoffMap]) (fun _ _ => rfl)

/-- The retry loop never emits a `record_request` event: its trace only grows
by attempt, sleep and backoff-bookkeeping events. -/
theorem retryGo_countP_isRecord {α : Type} (cfg : RetryConfig) (now : Rat) (id : String)
    (work : Nat → WorkResult α) (attempts : Nat) :
    ∀ (fuel attempt : Nat) (m : BackoffMap) (tr : List CallEvent) (last : Option ApiError),
      (retryGo cfg now id work attempts attempt fuel m tr last).trace.countP CallEvent.isRecord
        = tr.countP CallEvent.isRecord := by
  intro fuel
  induction fuel with
  | zero => intro attempt m tr last; rfl
  | succ k ih =>
    intro attempt m tr last
    simp only [retryGo]
    cases hw : work attempt with
    | ok v => simp [List.countP_append, CallEvent.isRecord]
    | raise e =>
      by_cases h1 : is_retriable_error e = false
      · simp [h1, List.countP_append, CallEvent.isRecord]
      · have h1' : is_retriable_error e = true := by
          cases his : is_retriable_error e
          · exact absurd his h1
          · rfl
        by_cases h2 : attempt < attempts
        · simp only [h1', Bool.true_eq_false, if_false, h2, if_true, ih]
          simp [List.countP_append, CallEvent.isRecord]
        · simp [h1, h2, List.countP_append, CallEvent.isRecord]

/-- Claim C3: one invocation of a call guarded by `reliable_api_call` first
waits for rate-limit permission, then records exactly one request, then runs
the entire retry loop: the trace is (optional rate wait) ++ one
`record_request` ++ the retry-loop trace, which itself contains no
`record_request`, and the final rate-limiter state is `record_request`
applied exactly once, however many attempts the loop made. -/
theorem claim_C3 {α : Type} (cfg : RetryConfig) (now : Rat) (id : String)
    (override : Option Nat) (work : Nat → WorkResult α) (s : RateLimiterState)
    (m : BackoffMap) :
    ∃ pre, (∀ ev ∈ pre, ∃ d, ev = CallEvent.rateWait d) ∧
      (reliable_api_call cfg now id override work s m).trace =
        pre ++ [CallEvent.recordRequest] ++ (with_retry cfg now id override work m).trace ∧
      (with_retry cfg now id override work m).trace.countP CallEvent.isRecord = 0 ∧
      (reliable_api_call cfg now id override work s m).trace.countP CallEvent.isRecord = 1 ∧
      (reliable_api_call cfg now id override work s m).rate =
        record_request now (wait_if_neededW now s).2 := by
  have hretry : (with_retry cfg now id override work m).trace.countP CallEvent.isRecord = 0 := by
    unfold with_retry
    rw [retryGo_countP_isRecord]
    by_cases h : 0 < (check_backoff now m id).1 <;> simp [h, CallEvent.isRecord]
  refine ⟨if 0 < (wait_if_neededW now s).1
            then [CallEvent.rateWait (wait_if_neededW now s).1] else [],
          ?_, rfl, hretry, ?_, rfl⟩
  · intro ev hev
    by_cases h : 0 < (wait_if_neededW now s).1
    · simp only [if_pos h, List.mem_singleton] at hev
      exact ⟨_, hev⟩
    · simp [if_neg h] at hev
  · have htr : (reliable_api_call cfg now id override work s m).trace =
        (if 0 < (wait_if_neededW now s).1
          then [CallEvent.rateWait (wait_if_neededW now s).1] else [])
          ++ [CallEvent.recordRequest] ++ (with_retry cfg now id override work m).trace := rfl
    rw [htr]
    simp only [List.countP_append, hretry]
    by_cases h : 0 < (wait_if_neededW now s).1 <;> simp [h, CallEvent.isRecord]

/-- When the deadline has already passed (or is unset), `check_backoff` does
not sleep. -/
theorem check_backoff_wait_eq_zero {now : Rat} {m : BackoffMap} {id : String}
    (hb : ∀ b, (m.state id).backoff_until = some b → b ≤ now) :
    (check_backoff now m id).1 = 0 := by
  unfold check_backoff
  cases h : (m.state id).backoff_until with
  | none => simp [h]
  | some bu => simp [h, not_lt.mpr (hb bu h)]

/-- Claim C6 (counterexample): when the operation-id has a pending backoff
window left by earlier calls, a run whose first attempt raises the
non-retriable `err400` still begins with a `check_backoff` sleep, so "no
sleep occurs" fails for that run; the other parts of the claim hold there. -/
theorem claim_C6_counterexample :
    (with_retry (RetryConfig.mk 3 1 60) 0 "op" none
        (fun _ => WorkResult.raise err400)
        (emptyBackoffMap.insert "op" (BackoffState.mk 0 none (some 10))) (α := Nat)).trace =
      [CallEvent.backoffWait 10, CallEvent.attempt 1] ∧
    is_retriable_error err400 = false := by
  have hnr : is_retriable_error err400 = false := by decide
  refine ⟨?_, hnr⟩
  have h10 : (10 : Rat) - 0 = 10 := by norm_num
  simp [with_retry, check_backoff, retryGo, BackoffMap.touch, BackoffMap.insert,
    emptyBackoffMap, resolve_attempts, hnr, h10]

/-- Claim C6 (amended): for every run whose first attempt raises a
non-retriable error, the error is re-raised immediately: no further attempt
is made, no sleep is inserted because of the error, and the operation-id's
recorded backoff values are unchanged — the trace is exactly the
pre-existing `check_backoff` cooldown wait (when a backoff window is pending
from earlier calls) followed by the single first attempt; when no window is
pending, no sleep at all occurs and the trace is the single attempt. -/
theorem claim_C6 {α : Type} (cfg : RetryConfig) (now : Rat) (id : String)
    (override : Option Nat) (work : Nat → WorkResult α) (m : BackoffMap) (err : ApiError)
    (hA : 1 ≤ resolve_attempts override cfg.max_attempts)
    (hw : work 1 = .raise err)
    (hnr : is_retriable_error err = false) :
    (with_retry cfg now id override work m).result = .error (some err) ∧
    (with_retry cfg now id override work m).trace =
      (if 0 < (check_backoff now m id).1
        then [CallEvent.backoffWait (check_backoff now m id).1] else [])
        ++ [CallEvent.attempt 1] ∧
    (with_retry cfg now id override work m).map.state id = m.state id ∧
    ((∀ b, (m.state id).backoff_until = some b → b ≤ now) →
      (with_retry cfg now id override work m).trace = [CallEvent.attempt 1]) := by
  obtain ⟨k, hk⟩ : ∃ k, resolve_attempts override cfg.max_attempts = k + 1 :=
    ⟨resolve_attempts override cfg.max_attempts - 1, by omega⟩
  have hwr : with_retry cfg now id override work m =
      retryGo cfg now id work (resolve_attempts override cfg.max_attempts) 1
        (resolve_attempts override cfg.max_attempts) (check_backoff now m id).2
        (if 0 < (check_backoff now m id).1
          then [CallEvent.backoffWait (check_backoff now m id).1] else [])
        none := rfl
  have hstep : ∀ (tr : List CallEvent),
      retryGo cfg now id work (k + 1) 1 (k + 1) (check_backoff now m id).2 tr none =
        ⟨.error (some err), (check_backoff now m id).2, tr ++ [CallEvent.attempt 1]⟩ := by
    intro tr
    simp [retryGo, hw, hnr]
  rw [hwr, hk, hstep]
  refine ⟨rfl, rfl, ?_, ?_⟩
  · rw [check_backoff_map, BackoffMap.touch_state]
  · intro hb
    rw [check_backoff_wait_eq_zero hb]
    simp

/-- Claim C6 witness: a 400 error with a plain message on the fresh handler
state; since no backoff window is pending, the trace is the single attempt. -/
theorem claim_C6_witness :
    (with_retry (RetryConfig.mk 3 1 60) 0 "op" none
        (fun _ => WorkResult.raise err400) emptyBackoffMap (α := Nat)).result =
      .error (some err400) ∧
    (with_retry (RetryConfig.mk 3 1 60) 0 "op" none
        (fun _ => WorkResult.raise err400) emptyBackoffMap (α := Nat)).map.state "op" =
      emptyBackoffMap.state "op" ∧
    (with_retry (RetryConfig.mk 3 1 60) 0 "op" none
        (fun _ => WorkResult.raise err400) emptyBackoffMap (α := Nat)).trace =
      [CallEvent.attempt 1] := by
  have h := claim_C6 (α := Nat) (RetryConfig.mk 3 1 60) 0 "op" none
    (fun _ => WorkResult.raise err400) emptyBackoffMap err400 (by decide) rfl (by decide)
  exact ⟨h.1, h.2.2.1,
    h.2.2.2 (fun b hb => by simp [emptyBackoffMap, default_backoff] at hb)⟩

/-- When every remaining attempt raises a retriable error, the loop sleeps
between attempts, calls `handle_failure` exactly once on the final attempt,
and ends with the final attempt's error. -/
theorem retryGo_all_fail {α : Type} (cfg : RetryConfig) (now : Rat) (id : String)
    (work : Nat → WorkResult α) (e : Nat → ApiError) (attempts : Nat) :
    ∀ (fuel attempt : Nat) (m : BackoffMap) (tr : List CallEvent) (last : Option ApiError),
      attempt + fuel = attempts + 1 → 1 ≤ fuel →
      (∀ n, attempt ≤ n → n ≤ attempts → work n = .raise (e n)) →
      (∀ n, attempt ≤ n → n ≤ attempts → is_retriable_error (e n) = true) →
      ∃ mid, retryGo cfg now id work attempts attempt fuel m tr last =
          ⟨.error (some (e attempts)), handle_failure cfg now m id (e attempts),
            (tr ++ mid) ++ [CallEvent.attempt attempts, CallEvent.handleFailure id]⟩ ∧
        mid.countP CallEvent.isHandleFailure = 0 := by
  intro fuel
  induction fuel with
  | zero =>
    intro attempt m tr last h1 h2 hw hr
    exact absurd h2 (by omega)
  | succ k ih =>
    intro attempt m tr last h1 h2 hw hr
    have hwa : work attempt = .raise (e attempt) := hw attempt le_rfl (by omega)
    have hra : is_retriable_error (e attempt) = true := hr attempt le_rfl (by omega)
    by_cases hk : k = 0
    · subst hk
      have ha : attempt = attempts := by omega
      subst ha
      refine ⟨[], ?_, rfl⟩
      simp [retryGo, hwa, hra]
    · have hlt : attempt < attempts := by omega
      have step : retryGo cfg now id work attempts attempt (k + 1) m tr last =
          retryGo cfg now id work attempts (attempt + 1) k m
            (tr ++ [CallEvent.attempt attempt] ++
              [CallEvent.sleep (calculate_backoff_delay cfg attempt (is_rate_limit_error (e attempt)))])
            (some (e attempt)) := by
        simp only [retryGo, hwa]
        rw [if_neg (by simp [hra]), if_pos hlt]
      obtain ⟨mid', heq, hcount⟩ :=
        ih (attempt + 1) m
          (tr ++ [CallEvent.attempt attempt] ++
            [CallEvent.sleep (calculate_backoff_delay cfg attempt (is_rate_limit_error (e attempt)))])
          (some (e attempt)) (by omega) (by omega)
          (fun n hn1 hn2 => hw n (by omega) hn2)
          (fun n hn1 hn2 => hr n (by omega) hn2)
      refine ⟨[CallEvent.attempt attempt,
                CallEvent.sleep (calculate_backoff_delay cfg attempt (is_rate_limit_error (e attempt)))]
                ++ mid', ?_, ?_⟩
      · rw [step, heq]
        simp [List.append_assoc]
      · simp only [List.countP_append, hcount]
        simp [CallEvent.isHandleFailure]

/-- Claim C5: when every attempt of a `with_retry` run fails with a retriable
error, `handle_failure` runs exactly once, as the final event: it increments
`consecutive_failures`, stamps `last_failure_time := now` and sets
`backoff_until` to `now` plus the delay computed from the new failure count
and the last error's rate-limit classification; the last error is then
re-raised. -/
theorem claim_C5 {α : Type} (cfg : RetryConfig) (now : Rat) (id : String)
    (override : Option Nat) (work : Nat → WorkResult α) (e : Nat → ApiError)
    (m : BackoffMap) (A : Nat)
    (hA : A = resolve_attempts override cfg.max_attempts) (hA1 : 1 ≤ A)
    (hw : ∀ n, 1 ≤ n → n ≤ A → work n = .raise (e n))
    (hr : ∀ n, 1 ≤ n → n ≤ A → is_retriable_error (e n) = true) :
    (with_retry cfg now id override work m).result = .error (some (e A)) ∧
    (with_retry cfg now id override work m).trace.countP CallEvent.isHandleFailure = 1 ∧
    (∃ t0, (with_retry cfg now id override work m).trace =
      t0 ++ [CallEvent.attempt A, CallEvent.handleFailure id]) ∧
    (with_retry cfg now id override work m).map.state id =
      { consecutive_failures := (m.state id).consecutive_failures + 1,
        last_failure_time := some now,
        backoff_until := some (now + calculate_backoff_delay cfg
          ((m.state id).consecutive_failures + 1) (is_rate_limit_error (e A))) } := by
  have hwr : with_retry cfg now id override work m =
      retryGo cfg now id work (resolve_attempts override cfg.max_attempts) 1
        (resolve_attempts override cfg.max_attempts) (check_backoff now m id).2
        (if 0 < (check_backoff now m id).1
          then [CallEvent.backoffWait (check_backoff now m id).1] else []) none := rfl
  rw [hwr, ← hA]
  obtain ⟨mid, heq, hcount⟩ :=
    retryGo_all_fail cfg now id work e A A 1 (check_backoff now m id).2
      (if 0 < (check_backoff now m id).1
        then [CallEvent.backoffWait (check_backoff now m id).1] else []) none
      (by omega) hA1 hw hr
  rw [heq]
  have htr0 : (if 0 < (check_backoff now m id).1
      then [CallEvent.backoffWait (check_backoff now m id).1]
      else []).countP CallEvent.isHandleFailure = 0 := by
    by_cases h : 0 < (check_backoff now m id).1 <;> simp [h, CallEvent.isHandleFailure]
  refine ⟨rfl, ?_, ⟨_, rfl⟩, ?_⟩
  · simp only [List.countP_append, htr0, hcount]
    simp [CallEvent.isHandleFailure]
  · show (handle_failure cfg now (check_backoff now m id).2 id (e A)).state id = _
    unfold handle_failure
    rw [BackoffMap.insert_state_self, check_backoff_map, BackoffMap.touch_state]

/-- Claim C5 witness: a single-attempt handler whose work always raises a
textual 429 error on the fresh handler state. -/
theorem claim_C5_witness :
    (with_retry (RetryConfig.mk 1 1 60) 0 "op" none
        (fun _ => WorkResult.raise err429text) emptyBackoffMap (α := Nat)).result =
      .error (some err429text) ∧
    (with_retry (RetryConfig.mk 1 1 60) 0 "op" none
        (fun _ => WorkResult.raise err429text) emptyBackoffMap
        (α := Nat)).trace.countP CallEvent.isHandleFailure = 1 ∧
    (∃ t0, (with_retry (RetryConfig.mk 1 1 60) 0 "op" none
        (fun _ => WorkResult.raise err429text) emptyBackoffMap (α := Nat)).trace =
      t0 ++ [CallEvent.attempt 1, CallEvent.handleFailure "op"]) ∧
    (with_retry (RetryConfig.mk 1 1 60) 0 "op" none
        (fun _ => WorkResult.raise err429text) emptyBackoffMap (α := Nat)).map.state "op" =
      { consecutive_failures := (emptyBackoffMap.state "op").consecutive_failures + 1,
        last_failure_time := some 0,
        backoff_until := some (0 + calculate_backoff_delay (RetryConfig.mk 1 1 60)
          ((emptyBackoffMap.state "op").consecutive_failures + 1)
          (is_rate_limit_error err429text)) } := by
  have h429 : is_retriable_error err429text = true := by decide
  exact claim_C5 (RetryConfig.mk 1 1 60) 0 "op" none (fun _ => WorkResult.raise err429text)
    (fun _ => err429text) emptyBackoffMap 1 rfl (by decide)
    (fun _ _ _ => rfl) (fun _ _ _ => h429)

/-- Claim C10: an explicit `max_attempts` override of 0 is swallowed by the
truthiness combination `max_attempts or self.max_attempts`, so the wrapped
call behaves exactly as if no override had been passed and the configured
default attempt budget is used. -/
theorem claim_C10 {α : Type} (cfg : RetryConfig) (now : Rat) (id : String)
    (work : Nat → WorkResult α) (m : BackoffMap) :
    with_retry cfg now id (some 0) work m = with_retry cfg now id none work m ∧
    resolve_attempts (some 0) cfg.max_attempts = cfg.max_attempts :=
  ⟨rfl, rfl⟩

end TVMaze
